import Mathlib

/-!
Verification of the filter refresh/update subsystem of AdGuardHome
(`internal/home/filter.go`), via a shallow embedding.

Byte strings are modelled as `List Nat` (each element a byte value < 256 in
the intended use; none of the statements need that bound).  Go `string`
values used as registry keys (URLs, display names) are modelled as Lean
`String`.  `strings.TrimSpace` and `strings.ToLower` are modelled on the
ASCII range, which is exact for all byte values below 0x80; the exotic
Unicode spaces (U+0085, U+00A0) and non-ASCII case mappings do not occur in
any statement below.
-/

namespace AdGuard

abbrev Byte := Nat

/-! ## CRC-32/IEEE (`hash/crc32`, reflected polynomial 0xEDB88320)

`crc32Byte` is the single-byte step: the table lookup
`tab[byte(crc)^v] ^ (crc >> 8)` of Go's `crc32.update` equals eight
single-bit steps applied to `crc ^^^ v`. -/

def crc32Poly : Nat := 0xEDB88320

/-- One bit of the reflected CRC-32 shift register. -/
def crc32Bit (crc : Nat) : Nat :=
  if crc % 2 = 1 then (crc / 2) ^^^ crc32Poly else crc / 2

/-- Eight single-bit steps. -/
def crc32Bits : Nat → Nat → Nat
  | 0, crc => crc
  | n + 1, crc => crc32Bits n (crc32Bit crc)

/-- Process one input byte. -/
def crc32Byte (crc b : Nat) : Nat := crc32Bits 8 (crc ^^^ b)

/-- The un-complemented inner loop of Go's `crc32.update`. -/
def crc32Body : Nat → List Byte → Nat
  | crc, [] => crc
  | crc, b :: rest => crc32Body (crc32Byte crc b) rest

def mask32 : Nat := 0xFFFFFFFF

/-- Go's `crc32.Update(crc, crc32.IEEETable, p)`: complement in, run the
body, complement out. -/
def crc32Update (crc : Nat) (p : List Byte) : Nat :=
  (crc32Body (crc ^^^ mask32) p) ^^^ mask32

/-- Go's `crc32.ChecksumIEEE(p) = crc32.Update(0, crc32.IEEETable, p)`. -/
def ChecksumIEEE (p : List Byte) : Nat := crc32Update 0 p

/-! ## Line splitting (`bufio.Reader.ReadString('\n')`)

The parse loop in `parseFilterContents` repeatedly calls
`r.ReadString('\n')`, which returns the data up to and including the first
newline, or the remaining data (with an EOF error, ending the loop) when no
newline is left.  On empty input the loop still processes one empty final
segment.  `goLines data` is the exact sequence of strings the loop
processes, in order. -/

def goLines : List Byte → List (List Byte)
  | [] => [[]]
  | b :: rest =>
    if b == 10 then [b] :: goLines rest
    else
      match goLines rest with
      | [] => [[b]]
      | l :: ls => (b :: l) :: ls

/-! ## `strings.TrimSpace` (ASCII model) and the title pattern -/

def isSpaceByte (b : Byte) : Bool :=
  b == 32 || b == 9 || b == 10 || b == 13 || b == 11 || b == 12

def trimSpace (l : List Byte) : List Byte :=
  ((l.dropWhile isSpaceByte).reverse.dropWhile isSpaceByte).reverse

/-- The byte string "! Title:". -/
def titleLit : List Byte := [33, 32, 84, 105, 116, 108, 101, 58]

/-- The anchored pattern compiled in `Filtering.Init`,
regexp `^! Title: +(.*)$`, applied to one (already trimmed) line: the
literal "! Title:", one or more spaces (greedy), then the captured rest of
the line. -/
def matchTitle (line : List Byte) : Option (List Byte) :=
  if titleLit.isPrefixOf line then
    let rest := line.drop 8
    if rest.headD 0 == 32 then some (rest.dropWhile (fun b => b == 32)) else none
  else none

/-! ## `parseFilterContents` -/

structure ParseState where
  rulesCount : Nat
  checksum : Nat
  name : List Byte
  seenTitle : Bool
deriving DecidableEq

def initParseState : ParseState := ⟨0, 0, [], false⟩

/-- The per-line classification of `parseFilterContents`, applied to the
trimmed line: empty lines and `#` lines count nothing, `!` lines are
comments except that the first one matching the title pattern records the
declared name, everything else is a rule. -/
def classifyLine (st : ParseState) (line : List Byte) : ParseState :=
  if line.isEmpty then st
  else if line.headD 0 == 33 then
    match matchTitle line with
    | some t => if st.seenTitle then st else { st with name := t, seenTitle := true }
    | none => st
  else if line.headD 0 == 35 then st
  else { st with rulesCount := st.rulesCount + 1 }

/-- One iteration of the `parseFilterContents` loop on the raw line: the
checksum is updated over the raw (untrimmed) bytes including the line
terminator, then the trimmed line is classified. -/
def processLine (st : ParseState) (raw : List Byte) : ParseState :=
  classifyLine { st with checksum := crc32Update st.checksum raw } (trimSpace raw)

structure ParseRes where
  rulesCount : Nat
  checksum : Nat
  name : List Byte
deriving DecidableEq

/-- `Filtering.parseFilterContents`: rule count, checksum and declared name
of a filter body. -/
def parseFilterContents (data : List Byte) : ParseRes :=
  let st := (goLines data).foldl processLine initParseState
  ⟨st.rulesCount, st.checksum, st.name⟩

/-! ## Content validation (`isPrintableText` and the HTML test in `read`)

`read` buffers the leading 4096 bytes of the stream (or everything, when
the stream is shorter) and, once the buffer is complete or the stream hits
EOF, rejects when `isPrintableText` fails or when the lowercased buffer
contains "<html" or "<!doctype".  The zero padding of a partially filled
buffer cannot create or destroy either marker, so the check is equivalent
to one on `data.take 4096`. -/

/-- The per-byte test of `isPrintableText`:
`(c >= ' ' && c != 0x7f) || c == '\n' || c == '\r' || c == '\t'`. -/
def printableByte (c : Byte) : Bool :=
  (decide (32 ≤ c) && decide (c ≠ 127)) || c == 10 || c == 13 || c == 9

def isPrintableText (data : List Byte) : Bool := data.all printableByte

/-- `strings.ToLower`, ASCII model. -/
def toLowerByte (c : Byte) : Byte := if 65 ≤ c ∧ c ≤ 90 then c + 32 else c

/-- The byte string "&lt;html" (already lowercase). -/
def htmlMarker : List Byte := [60, 104, 116, 109, 108]

/-- The byte string "&lt;!doctype" (already lowercase). -/
def doctypeMarker : List Byte := [60, 33, 100, 111, 99, 116, 121, 112, 101]

/-- `strings.Contains`. -/
def containsSub (pat : List Byte) : List Byte → Bool
  | [] => pat.isEmpty
  | b :: rest => pat.isPrefixOf (b :: rest) || containsSub pat rest

def firstChunkSize : Nat := 4096

/-- The validation performed by `Filtering.read` on the leading chunk of
the downloaded stream; `true` means the stream is accepted. -/
def readAccepts (data : List Byte) : Bool :=
  let chunk := data.take firstChunkSize
  isPrintableText chunk
    && !containsSub htmlMarker (chunk.map toLowerByte)
    && !containsSub doctypeMarker (chunk.map toLowerByte)

/-! ## The per-filter update pipeline (`update`, `updateIntl`,
`finalizeUpdate`)

The filter record carries the fields the pipeline touches.  The on-disk
committed file is modelled as `Option (List Byte × Nat)` — content and
modification time, `none` when no file has ever been committed.  I/O
failures of the fetch step are abstracted into `Fetch.fetchErr`; the
temp-file writes, seek, close, rename and remove are modelled as
succeeding. -/

structure FilterB where
  name : List Byte
  rulesCount : Nat
  checksum : Nat
  lastUpdated : Nat
deriving DecidableEq

/-- `stringutil.Coalesce` on two strings: the first non-empty one. -/
def coalesce (a b : List Byte) : List Byte := if a.isEmpty then b else a

structure FinalizeRes where
  flt : FilterB
  renamed : Bool
  tempRemoved : Bool
deriving DecidableEq

/-- `finalizeUpdate`: when `updated` is false the temporary file is
removed; otherwise it is renamed into the filter's path and the name
(via `Coalesce`), checksum and rules count are stored. -/
def finalizeUpdate (flt : FilterB) (updated : Bool) (name : List Byte)
    (rnum : Nat) (cs : Nat) : FinalizeRes :=
  if !updated then ⟨flt, false, true⟩
  else ⟨{ flt with name := coalesce flt.name name, checksum := cs, rulesCount := rnum },
        true, false⟩

/-- Outcome of one fetch attempt: transport/open/non-200 failure, or the
body bytes. -/
inductive Fetch
  | fetchErr
  | body (data : List Byte)
deriving DecidableEq

structure IntlRes where
  flt : FilterB
  ok : Bool
  errored : Bool
  renamed : Bool
  tempRemoved : Bool
deriving DecidableEq

/-- `updateIntl`: download, validate, parse, and let the deferred
`finalizeUpdate` commit or discard; `ok` is `cs != flt.checksum` on the
successful path and false on every failure path. -/
def updateIntl (flt : FilterB) (fetch : Fetch) : IntlRes :=
  match fetch with
  | .fetchErr =>
      let fr := finalizeUpdate flt false [] 0 0
      ⟨fr.flt, false, true, fr.renamed, fr.tempRemoved⟩
  | .body data =>
      if readAccepts data then
        let p := parseFilterContents data
        let ok := decide (p.checksum ≠ flt.checksum)
        let fr := finalizeUpdate flt ok p.name p.rulesCount p.checksum
        ⟨fr.flt, ok, false, fr.renamed, fr.tempRemoved⟩
      else
        let fr := finalizeUpdate flt false [] 0 0
        ⟨fr.flt, false, true, fr.renamed, fr.tempRemoved⟩

structure UpdateOutcome where
  flt : FilterB
  disk : Option (List Byte × Nat)
  updated : Bool
  errored : Bool
  renamed : Bool
  tempRemoved : Bool
deriving DecidableEq

/-- `Filtering.update`: run `updateIntl`, set `LastUpdated = now`, and when
no actual update happened, `os.Chtimes` the committed file (a no-op when it
does not exist). -/
def update (now : Nat) (flt : FilterB) (disk : Option (List Byte × Nat))
    (fetch : Fetch) : UpdateOutcome :=
  let r := updateIntl flt fetch
  let flt2 := { r.flt with lastUpdated := now }
  let disk2 :=
    match fetch, r.renamed with
    | .body data, true => some (data, now)
    | _, _ => disk
  let disk3 :=
    if !r.ok then
      match disk2 with
      | some p => some (p.1, now)
      | none => none
    else disk2
  ⟨flt2, disk3, r.ok, r.errored, r.renamed, r.tempRemoved⟩

/-- Content component of the modelled on-disk file. -/
def contentOf (d : Option (List Byte × Nat)) : Option (List Byte) := d.map Prod.fst

/-! ## The filter registry (`filter` entries, `filterSetProperties`)

Registry-level URLs and display names are Go strings used only as keys, so
they are modelled as `String`.  `time.Time` values are modelled by their
Unix seconds; the zero `time.Time{}` has Unix value `-62135596800`. -/

def zeroTime : Int := -62135596800

structure RegFilter where
  enabled : Bool
  url : String
  name : String
  rulesCount : Nat
  lastUpdated : Int
  checksum : Nat
  id : Int
deriving DecidableEq

structure Config where
  filters : List RegFilter
  whitelistFilters : List RegFilter
deriving DecidableEq

def statusFound : Nat := 1
def statusEnabledChanged : Nat := 2
def statusURLChanged : Nat := 4
def statusURLExists : Nat := 8
def statusUpdateRequired : Nat := 16

def filterExistsNoLock (cfg : Config) (url : String) : Bool :=
  cfg.filters.any (fun f => f.url == url) ||
    cfg.whitelistFilters.any (fun f => f.url == url)

/-- `filter.unload`: clear the cached rules count and checksum. -/
def unload (filt : RegFilter) : RegFilter := { filt with rulesCount := 0, checksum := 0 }

/-- Result of `Filtering.load` reading the committed file: missing file
(no error, nothing loaded), open/stat failure, or the parsed rules count,
checksum and file modification time. -/
inductive LoadRes
  | notExist
  | openErr
  | ok (rc : Nat) (cs : Nat) (mtime : Int)
deriving DecidableEq

/-- `Filtering.load` applied to a filter entry: `true` in the second
component means the load returned an error. -/
def load (filt : RegFilter) : LoadRes → RegFilter × Bool
  | .notExist => (filt, false)
  | .openErr => (filt, true)
  | .ok rc cs mt => ({ filt with rulesCount := rc, checksum := cs, lastUpdated := mt }, false)

/-- The `Enabled` half of the `filterSetProperties` body, entered with the
status flags accumulated so far; every exit returns `r | statusFound`. -/
def setPropsEnabled (loadRes : LoadRes) (filt : RegFilter) (newf : RegFilter)
    (r : Nat) : RegFilter × Nat :=
  if filt.enabled ≠ newf.enabled then
    let r := r ||| statusEnabledChanged
    let filt := { filt with enabled := newf.enabled }
    if filt.enabled then
      if r &&& statusURLChanged = 0 then
        let lr := load filt loadRes
        if lr.2 then
          ({ lr.1 with lastUpdated := zeroTime, checksum := 0, rulesCount := 0 },
            (r ||| statusUpdateRequired) ||| statusFound)
        else (lr.1, r ||| statusFound)
      else (filt, r ||| statusFound)
    else (unload filt, r ||| statusFound)
  else (filt, r ||| statusFound)

/-- The body of `filterSetProperties` once the entry with the given URL has
been located: the name is assigned first; a URL change that collides with
an existing entry returns just `statusURLExists`. -/
def setPropsFound (cfg : Config) (loadRes : LoadRes) (filt : RegFilter)
    (newf : RegFilter) : RegFilter × Nat :=
  let filt := { filt with name := newf.name }
  if filt.url ≠ newf.url then
    let r := statusURLChanged ||| statusUpdateRequired
    if filterExistsNoLock cfg newf.url then (filt, statusURLExists)
    else
      let filt := { unload { filt with url := newf.url } with
                    lastUpdated := zeroTime, checksum := 0, rulesCount := 0 }
      setPropsEnabled loadRes filt newf r
  else setPropsEnabled loadRes filt newf 0

/-- The scan of `filterSetProperties` over the designated sequence: the
first entry whose URL matches is mutated, the rest are left alone; a miss
returns status `0`. -/
def filterSetPropertiesList (cfg : Config) (loadRes : LoadRes) (url : String)
    (newf : RegFilter) : List RegFilter → List RegFilter × Nat
  | [] => ([], 0)
  | filt :: rest =>
    if filt.url = url then
      let fr := setPropsFound cfg loadRes filt newf
      (fr.1 :: rest, fr.2)
    else
      let lr := filterSetPropertiesList cfg loadRes url newf rest
      (filt :: lr.1, lr.2)

/-- `Filtering.filterSetProperties`. -/
def filterSetProperties (cfg : Config) (loadRes : LoadRes) (url : String)
    (newf : RegFilter) (whitelist : Bool) : Config × Nat :=
  if whitelist then
    let lr := filterSetPropertiesList cfg loadRes url newf cfg.whitelistFilters
    ({ cfg with whitelistFilters := lr.1 }, lr.2)
  else
    let lr := filterSetPropertiesList cfg loadRes url newf cfg.filters
    ({ cfg with filters := lr.1 }, lr.2)

/-! ## Batch refresh (`refreshFiltersArray`, `refreshFiltersIfNecessary`)

The per-filter network update is abstracted as `upd : RegFilter → UpdRes`
applied to the snapshot copied out under the read lock; `UpdRes.fail` is a
fetch/validate error, `UpdRes.done changed` a completed attempt.  The model
returns the pair the callers consume: the merged update count and the
all-failed ("network error") flag. -/

inductive UpdRes
  | fail
  | done (changed : Bool)
deriving DecidableEq

def isFail : UpdRes → Bool
  | .fail => true
  | .done _ => false

def isChanged : UpdRes → Bool
  | .done true => true
  | _ => false

/-- The snapshot `uf` copied out of the registry under the read lock:
only ID, URL, Name and checksum are copied, the rest stay zero-valued. -/
def snapshotOf (f : RegFilter) : RegFilter :=
  { enabled := false, url := f.url, name := f.name, rulesCount := 0,
    lastUpdated := zeroTime, checksum := f.checksum, id := f.id }

/-- Candidate test of `refreshFiltersArray`: enabled, and stale unless
forced (`expireTime = LastUpdated + hours*3600`; skip iff
`!force && expireTime > now`). -/
def isCandidate (force : Bool) (now ivalHours : Int) (f : RegFilter) : Bool :=
  f.enabled && (force || decide (f.lastUpdated + ivalHours * 3600 ≤ now))

def candidatesOf (force : Bool) (now ivalHours : Int)
    (filters : List RegFilter) : List RegFilter :=
  (filters.filter (isCandidate force now ivalHours)).map snapshotOf

/-- Number of registry entries the merge loop matches against one
snapshot (same ID and URL). -/
def matchCount (filters : List RegFilter) (c : RegFilter) : Nat :=
  (filters.filter (fun g => decide (g.id = c.id ∧ g.url = c.url))).length

/-- `Filtering.refreshFiltersArray`, returning `(updateCount, netError)`:
no candidates gives `(0, false)`; every candidate failing gives
`(0, true)`; otherwise each changed snapshot bumps the count once per
matching registry entry. -/
def refreshFiltersArray (upd : RegFilter → UpdRes) (force : Bool)
    (now ivalHours : Int) (filters : List RegFilter) : Nat × Bool :=
  let cands := candidatesOf force now ivalHours filters
  if cands.isEmpty then (0, false)
  else
    let nfail := (cands.filter (fun c => isFail (upd c))).length
    if nfail = cands.length then (0, true)
    else
      let updateCount := (cands.map (fun c =>
        if isChanged (upd c) then matchCount filters c else 0)).sum
      (updateCount, false)

def filterRefreshForce : Nat := 1
def filterRefreshAllowlists : Nat := 2
def filterRefreshBlocklists : Nat := 4

/-- `Filtering.refreshFiltersIfNecessary`: runs the arrays selected by
`flags` and reports a network error only when both runs reported one. -/
def refreshFiltersIfNecessary (upd : RegFilter → UpdRes) (flags : Nat)
    (now ivalHours : Int) (cfg : Config) : Nat × Bool :=
  let force := flags &&& filterRefreshForce ≠ 0
  let b := if flags &&& filterRefreshBlocklists ≠ 0
    then refreshFiltersArray upd force now ivalHours cfg.filters else (0, false)
  let w := if flags &&& filterRefreshAllowlists ≠ 0
    then refreshFiltersArray upd force now ivalHours cfg.whitelistFilters else (0, false)
  if b.2 && w.2 then (0, true) else (b.1 + w.1, false)

/-! ## Scheduler interval policy (`periodicallyRefreshFilters`) -/

def maxInterval : Nat := 1 * 60 * 60

def initialInterval : Nat := 5

/-- One pass of the loop body of `periodicallyRefreshFilters` as a function
of the interval: `ran` reflects whether a batch actually ran (interval
configured and the single-flight flag acquired), `netErr` the batch's
network-error result. -/
def periodicStep (intval : Nat) (ran netErr : Bool) : Nat :=
  let isNetworkErr := ran && netErr
  let i := if ran && !isNetworkErr then maxInterval else intval
  if isNetworkErr then
    let i := i * 2
    if i > maxInterval then maxInterval else i
  else i

/-! ## Filter ID assignment (`assignUniqueFilterID`, `loadFilters`,
`updateUniqueFilterID`)

Only the ID bookkeeping of `loadFilters` is relevant here, so the filters
are represented by their IDs and the `nextFilterID` counter is threaded
explicitly (it is seeded at process start from `time.Now().Unix()`). -/

def assignUniqueFilterID (next : Int) : Int × Int := (next, next + 1)

/-- The ID pass of `Filtering.loadFilters`: every filter whose ID is zero
receives the counter value and the counter is incremented. -/
def loadFilters (next : Int) : List Int → List Int × Int
  | [] => ([], next)
  | id :: rest =>
    let a := if id = 0 then assignUniqueFilterID next else (id, next)
    let r := loadFilters a.2 rest
    (a.1 :: r.1, r.2)

/-- `updateUniqueFilterID`: raise the counter past any larger ID seen. -/
def updateUniqueFilterID (next : Int) : List Int → Int
  | [] => next
  | id :: rest => updateUniqueFilterID (if next < id then id + 1 else next) rest

/-- The IDs handed out by one `loadFilters` pass, in order: the output IDs
at the positions whose input ID was zero. -/
def assignedIDs (next : Int) (ids : List Int) : List Int :=
  (((loadFilters next ids).1).zip ids).filterMap
    (fun p => if p.2 = 0 then some p.1 else none)

/-! ## Checksum lemmas -/

theorem crc32Body_nil (c : Nat) : crc32Body c [] = c := rfl

theorem crc32Body_cons (c x : Nat) (rest : List Byte) :
    crc32Body c (x :: rest) = crc32Body (crc32Byte c x) rest := rfl

theorem crc32Body_append (a b : List Byte) :
    ∀ c, crc32Body c (a ++ b) = crc32Body (crc32Body c a) b := by
  induction a with
  | nil => intro c; rw [List.nil_append, crc32Body_nil]
  | cons x xs ih =>
    intro c
    rw [List.cons_append, crc32Body_cons, crc32Body_cons, ih]

theorem xor_mask_cancel (x : Nat) : (x ^^^ mask32) ^^^ mask32 = x := by
  rw [Nat.xor_assoc, Nat.xor_self, Nat.xor_zero]

theorem crc32Update_nil (c : Nat) : crc32Update c [] = c := by
  show (crc32Body (c ^^^ mask32) []) ^^^ mask32 = c
  rw [crc32Body_nil]
  exact xor_mask_cancel c

theorem crc32Update_append (c : Nat) (a b : List Byte) :
    crc32Update (crc32Update c a) b = crc32Update c (a ++ b) := by
  unfold crc32Update
  rw [crc32Body_append, xor_mask_cancel]

theorem foldl_crc32Update_flatten (ls : List (List Byte)) :
    ∀ c, ls.foldl crc32Update c = crc32Update c ls.flatten := by
  induction ls with
  | nil => intro c; rw [List.foldl_nil, List.flatten_nil, crc32Update_nil]
  | cons l ls ih =>
    intro c
    rw [List.foldl_cons, List.flatten_cons, ih, crc32Update_append]

/-! ## Line-splitting lemmas -/

theorem goLines_ne_nil (data : List Byte) : goLines data ≠ [] := by
  cases data with
  | nil => simp [goLines]
  | cons b rest =>
    simp only [goLines]
    split
    · simp
    · split <;> simp

theorem goLines_flatten (data : List Byte) : (goLines data).flatten = data := by
  induction data with
  | nil => simp [goLines]
  | cons b rest ih =>
    simp only [goLines]
    split
    · rw [List.flatten_cons]
      simp only [List.singleton_append]
      rw [ih]
    · split
      · next hnil => exact absurd hnil (goLines_ne_nil rest)
      · next l ls hl =>
        rw [hl] at ih
        rw [List.flatten_cons] at ih ⊢
        rw [List.cons_append, ih]

/-! ## Parser state lemmas -/

theorem classifyLine_checksum (st : ParseState) (l : List Byte) :
    (classifyLine st l).checksum = st.checksum := by
  unfold classifyLine
  repeat' split
  all_goals rfl

theorem processLine_checksum (st : ParseState) (raw : List Byte) :
    (processLine st raw).checksum = crc32Update st.checksum raw := by
  unfold processLine
  rw [classifyLine_checksum]

theorem foldl_processLine_checksum (ls : List (List Byte)) :
    ∀ st : ParseState,
      (ls.foldl processLine st).checksum = ls.foldl crc32Update st.checksum := by
  induction ls with
  | nil => intro st; rfl
  | cons l ls ih =>
    intro st
    rw [List.foldl_cons, List.foldl_cons, ih, processLine_checksum]

/-- C5: the checksum produced by the one-pass parser — CRC-32/IEEE
accumulated incrementally over each raw line including its original line
terminator, in file order — equals the CRC-32/IEEE of the entire
concatenated byte stream. -/
theorem parse_checksum_eq_whole_stream_crc (data : List Byte) :
    (parseFilterContents data).checksum = ChecksumIEEE data := by
  unfold parseFilterContents ChecksumIEEE
  simp only
  rw [foldl_processLine_checksum, foldl_crc32Update_flatten, goLines_flatten]
  rfl

/-! ## Title and rule-count lemmas -/

theorem matchTitle_some_shape (l t : List Byte) (hm : matchTitle l = some t) :
    ∃ as, l = 33 :: as := by
  cases l with
  | nil => simp [matchTitle, titleLit, List.isPrefixOf] at hm
  | cons a as =>
    unfold matchTitle at hm
    split at hm
    · next hp =>
      simp only [titleLit, List.isPrefixOf, Bool.and_eq_true, beq_iff_eq] at hp
      exact ⟨as, by rw [hp.1]⟩
    · simp at hm

theorem classifyLine_name_eq (st : ParseState) (l : List Byte)
    (h : st.seenTitle = true ∨ matchTitle l = none) :
    (classifyLine st l).name = st.name ∧
      (classifyLine st l).seenTitle = st.seenTitle := by
  unfold classifyLine
  repeat' split
  all_goals first | exact ⟨rfl, rfl⟩ | simp_all

theorem classifyLine_name_of_some (st : ParseState) (l t : List Byte)
    (hm : matchTitle l = some t) (hs : st.seenTitle = false) :
    classifyLine st l = { st with name := t, seenTitle := true } := by
  obtain ⟨as, rfl⟩ := matchTitle_some_shape l t hm
  unfold classifyLine
  simp [hm, hs]

theorem classifyLine_rules_skip (st : ParseState) (l : List Byte)
    (h : l.isEmpty = true ∨ l.headD 0 = 33 ∨ l.headD 0 = 35) :
    (classifyLine st l).rulesCount = st.rulesCount := by
  unfold classifyLine
  repeat' split
  all_goals first | rfl | simp_all

theorem classifyLine_rules_rule (st : ParseState) (l : List Byte)
    (h1 : l.isEmpty = false) (h2 : l.headD 0 ≠ 33) (h3 : l.headD 0 ≠ 35) :
    (classifyLine st l).rulesCount = st.rulesCount + 1 := by
  cases l with
  | nil => simp at h1
  | cons a as =>
    have h2a : a ≠ 33 := by simpa using h2
    have h3a : a ≠ 35 := by simpa using h3
    unfold classifyLine
    simp [h2a, h3a]

theorem processLine_name_eq (st : ParseState) (raw : List Byte)
    (h : st.seenTitle = true ∨ matchTitle (trimSpace raw) = none) :
    (processLine st raw).name = st.name ∧
      (processLine st raw).seenTitle = st.seenTitle := by
  unfold processLine
  exact classifyLine_name_eq _ _ h

theorem foldl_processLine_name_seen (ls : List (List Byte)) :
    ∀ st : ParseState, st.seenTitle = true →
      (ls.foldl processLine st).name = st.name := by
  induction ls with
  | nil => intro st _; rfl
  | cons l rest ih =>
    intro st hs
    rw [List.foldl_cons]
    obtain ⟨hn, hsn⟩ := processLine_name_eq st l (Or.inl hs)
    rw [ih _ (hsn.trans hs), hn]

theorem foldl_processLine_name (ls : List (List Byte)) :
    ∀ st : ParseState, st.seenTitle = false →
      (ls.foldl processLine st).name =
        ((ls.filterMap (fun l => matchTitle (trimSpace l))).headD st.name) := by
  induction ls with
  | nil => intro st _; rfl
  | cons l rest ih =>
    intro st hs
    rw [List.foldl_cons, List.filterMap_cons]
    cases hm : matchTitle (trimSpace l) with
    | none =>
      obtain ⟨hn, hsn⟩ := processLine_name_eq st l (Or.inr hm)
      rw [ih _ (hsn.trans hs), hn]
    | some t =>
      have hcl : processLine st l =
          { st with checksum := crc32Update st.checksum l, name := t, seenTitle := true } := by
        unfold processLine
        exact classifyLine_name_of_some _ _ _ hm hs
      rw [hcl, foldl_processLine_name_seen rest _ rfl]
      rfl

/-- C7: during parsing, only the first line whose trimmed text matches
`! Title:` followed by one or more spaces and text sets the declared name
(the parser's result is the first per-line match, later matching lines are
ignored), and at commit the declared title is applied to the filter's Name
only when the current Name is empty, so an existing user-set Name is never
overwritten. -/
theorem title_first_match_and_commit_only_if_empty :
    (∀ data, (parseFilterContents data).name =
        ((goLines data).filterMap (fun l => matchTitle (trimSpace l))).headD [])
    ∧ (∀ now flt disk d, readAccepts d = true →
        (parseFilterContents d).checksum ≠ flt.checksum →
        (update now flt disk (Fetch.body d)).flt.name =
          (if flt.name.isEmpty then (parseFilterContents d).name else flt.name)) := by
  constructor
  · intro data
    unfold parseFilterContents
    simp only
    exact foldl_processLine_name (goLines data) initParseState rfl
  · intro now flt disk d hacc hcs
    have hok : decide ((parseFilterContents d).checksum ≠ flt.checksum) = true :=
      decide_eq_true hcs
    simp [update, updateIntl, finalizeUpdate, coalesce, hacc, hok]

/-- C10 (amended): the parser classifies each line only after trimming
leading and trailing whitespace — a whitespace-only line counts as blank, a
line whose first non-whitespace byte is `!` or `#` counts as a comment, and
only the remaining lines increment the rules count — while the checksum is
accumulated over the raw untrimmed line bytes; but, contrary to the claim,
the title pattern is matched against the trimmed line, so an indented
`! Title:` line does match it. -/
theorem parse_classifies_trimmed_lines :
    (∀ st raw, (processLine st raw).checksum = crc32Update st.checksum raw)
    ∧ (∀ st raw, trimSpace raw = [] →
        (processLine st raw).rulesCount = st.rulesCount ∧
          (processLine st raw).name = st.name)
    ∧ (∀ st raw, (trimSpace raw).headD 0 = 33 ∨ (trimSpace raw).headD 0 = 35 →
        (processLine st raw).rulesCount = st.rulesCount)
    ∧ (∀ st raw, trimSpace raw ≠ [] → (trimSpace raw).headD 0 ≠ 33 →
        (trimSpace raw).headD 0 ≠ 35 →
        (processLine st raw).rulesCount = st.rulesCount + 1)
    ∧ (∀ st raw t, st.seenTitle = false → matchTitle (trimSpace raw) = some t →
        (processLine st raw).name = t) := by
  refine ⟨processLine_checksum, ?_, ?_, ?_, ?_⟩
  · intro st raw h
    unfold processLine
    rw [h]
    exact ⟨rfl, rfl⟩
  · intro st raw h
    unfold processLine
    exact classifyLine_rules_skip _ _ (Or.inr h)
  · intro st raw h1 h2 h3
    have hie : (trimSpace raw).isEmpty = false := by
      cases hx : trimSpace raw with
      | nil => exact absurd hx h1
      | cons a as => rfl
    unfold processLine
    exact classifyLine_rules_rule _ _ hie h2 h3
  · intro st raw t hs hm
    unfold processLine
    rw [classifyLine_name_of_some { st with checksum := crc32Update st.checksum raw }
      (trimSpace raw) t hm hs]

/-! ## Validator lemmas -/

theorem printableByte_true_iff (b : Byte) :
    printableByte b = true ↔ ((32 ≤ b ∧ b ≠ 127) ∨ b = 10 ∨ b = 13 ∨ b = 9) := by
  simp only [printableByte, Bool.or_eq_true, Bool.and_eq_true,
    decide_eq_true_eq, beq_iff_eq]
  tauto

theorem isPrintableText_false_iff (l : List Byte) :
    isPrintableText l = false ↔
      ∃ b ∈ l, ¬((32 ≤ b ∧ b ≠ 127) ∨ b = 10 ∨ b = 13 ∨ b = 9) := by
  unfold isPrintableText
  rw [List.all_eq_false]
  constructor
  · rintro ⟨b, hb, hpb⟩
    exact ⟨b, hb, fun hc => hpb ((printableByte_true_iff b).mpr hc)⟩
  · rintro ⟨b, hb, hbad⟩
    exact ⟨b, hb, fun hc => hbad ((printableByte_true_iff b).mp hc)⟩

theorem containsSub_iff (pat l : List Byte) :
    containsSub pat l = true ↔ ∃ pre post, l = pre ++ pat ++ post := by
  induction l with
  | nil =>
    constructor
    · intro h
      have hp : pat = [] := by
        simpa [containsSub, List.isEmpty_iff] using h
      exact ⟨[], [], by simp [hp]⟩
    · rintro ⟨pre, post, h⟩
      obtain ⟨h1, h2⟩ := List.append_eq_nil.mp (List.append_eq_nil.mp h.symm).1
      simp [containsSub, h2]
  | cons b rest ih =>
    rw [containsSub, Bool.or_eq_true, ih, List.isPrefixOf_iff_prefix]
    constructor
    · rintro (⟨t, ht⟩ | ⟨pre, post, heq⟩)
      · exact ⟨[], t, by simp [ht]⟩
      · exact ⟨b :: pre, post, by simp [heq]⟩
    · rintro ⟨pre, post, heq⟩
      cases pre with
      | nil =>
        exact Or.inl ⟨post, by simpa using heq.symm⟩
      | cons p ps =>
        rw [List.cons_append, List.cons_append, List.cons.injEq] at heq
        exact Or.inr ⟨ps, post, heq.2⟩

/-- C2 (amended): the content validator inspects the leading prefix of up
to 4096 bytes and rejects the update — with no content committed — if and
only if that prefix contains a byte outside the set
`{0x20..0xFF} \ {0x7F}` together with `\n`, `\r`, `\t` (the code allows
every byte of 0x20 and above except DEL, including 0x80..0xFF, unlike the
claimed 0x20..0x7E), or the lowercased prefix contains the substring
`<html` or `<!doctype`. -/
theorem read_rejects_iff_nonprintable_or_html (data : List Byte) :
    ((readAccepts data = false) ↔
      ((∃ b ∈ data.take firstChunkSize, ¬((32 ≤ b ∧ b ≠ 127) ∨ b = 10 ∨ b = 13 ∨ b = 9))
        ∨ (∃ pre post,
            (data.take firstChunkSize).map toLowerByte = pre ++ htmlMarker ++ post)
        ∨ (∃ pre post,
            (data.take firstChunkSize).map toLowerByte = pre ++ doctypeMarker ++ post)))
    ∧ (∀ now flt disk, readAccepts data = false →
        ((update now flt disk (Fetch.body data)).errored = true
          ∧ (update now flt disk (Fetch.body data)).renamed = false
          ∧ (update now flt disk (Fetch.body data)).updated = false
          ∧ (update now flt disk (Fetch.body data)).tempRemoved = true
          ∧ contentOf (update now flt disk (Fetch.body data)).disk = contentOf disk)) := by
  constructor
  · rw [← isPrintableText_false_iff,
      ← containsSub_iff htmlMarker ((data.take firstChunkSize).map toLowerByte),
      ← containsSub_iff doctypeMarker ((data.take firstChunkSize).map toLowerByte)]
    simp only [readAccepts]
    cases hA : isPrintableText (data.take firstChunkSize) <;>
      cases hB : containsSub htmlMarker ((data.take firstChunkSize).map toLowerByte) <;>
        cases hC : containsSub doctypeMarker ((data.take firstChunkSize).map toLowerByte) <;>
          simp
  · intro now flt disk h
    cases disk with
    | none => simp [update, updateIntl, finalizeUpdate, contentOf, h]
    | some p => simp [update, updateIntl, finalizeUpdate, contentOf, h]

/-- C1 (amended): a per-filter update attempt that fails during fetch or
content validation sets the filter's LastUpdated to the current time and
discards the temporary file, but — contrary to the claim — it leaves the
cached RulesCount and Checksum unchanged rather than clearing them to
zero, and while the previously committed on-disk content is untouched, the
committed file's modification time is set to the current time. -/
theorem failed_update_keeps_cached_metadata :
    ∀ now flt disk fetch,
      (fetch = Fetch.fetchErr ∨ ∃ d, fetch = Fetch.body d ∧ readAccepts d = false) →
      ((update now flt disk fetch).flt.lastUpdated = now
        ∧ (update now flt disk fetch).tempRemoved = true
        ∧ (update now flt disk fetch).renamed = false
        ∧ (update now flt disk fetch).errored = true
        ∧ (update now flt disk fetch).flt.checksum = flt.checksum
        ∧ (update now flt disk fetch).flt.rulesCount = flt.rulesCount
        ∧ (update now flt disk fetch).flt.name = flt.name
        ∧ (update now flt disk fetch).disk = disk.map (fun p => (p.1, now))) := by
  intro now flt disk fetch h
  rcases h with rfl | ⟨d, rfl, hrej⟩
  · cases disk with
    | none => simp [update, updateIntl, finalizeUpdate]
    | some p => simp [update, updateIntl, finalizeUpdate]
  · cases disk with
    | none => simp [update, updateIntl, finalizeUpdate, hrej]
    | some p => simp [update, updateIntl, finalizeUpdate, hrej]

/-- C6: when the computed checksum of fetched (and accepted) content
equals the filter's stored checksum, no rename into the target path is
performed, the temporary file is discarded, the filter's RulesCount, Name
and Checksum are unchanged, the on-disk target's modification time is set
to now (content untouched), and LastUpdated is still advanced to now. -/
theorem unchanged_content_skips_commit :
    ∀ now flt disk d, readAccepts d = true →
      (parseFilterContents d).checksum = flt.checksum →
      ((update now flt disk (Fetch.body d)).renamed = false
        ∧ (update now flt disk (Fetch.body d)).tempRemoved = true
        ∧ (update now flt disk (Fetch.body d)).updated = false
        ∧ (update now flt disk (Fetch.body d)).errored = false
        ∧ (update now flt disk (Fetch.body d)).flt.name = flt.name
        ∧ (update now flt disk (Fetch.body d)).flt.rulesCount = flt.rulesCount
        ∧ (update now flt disk (Fetch.body d)).flt.checksum = flt.checksum
        ∧ (update now flt disk (Fetch.body d)).flt.lastUpdated = now
        ∧ (update now flt disk (Fetch.body d)).disk = disk.map (fun p => (p.1, now))) := by
  intro now flt disk d hacc hcs
  have hok : decide ((parseFilterContents d).checksum ≠ flt.checksum) = false := by
    simp [hcs]
  cases disk with
  | none => simp [update, updateIntl, finalizeUpdate, hacc, hok]
  | some p => simp [update, updateIntl, finalizeUpdate, hacc, hok]

/-! ## Registry property-update lemmas -/

theorem setPropsFound_urlExists (cfg : Config) (lr : LoadRes) (filt newf : RegFilter)
    (hne : newf.url ≠ filt.url) (hex : filterExistsNoLock cfg newf.url = true) :
    setPropsFound cfg lr filt newf = ({ filt with name := newf.name }, statusURLExists) := by
  have h1 : filt.url ≠ newf.url := fun hc => hne hc.symm
  simp [setPropsFound, h1, hex]

theorem filterSetPropertiesList_found (cfg : Config) (lr : LoadRes) (newf : RegFilter) :
    ∀ (pre : List RegFilter) (filt : RegFilter) (post : List RegFilter),
      (∀ g ∈ pre, g.url ≠ filt.url) →
      filterSetPropertiesList cfg lr filt.url newf (pre ++ filt :: post) =
        (pre ++ (setPropsFound cfg lr filt newf).1 :: post,
          (setPropsFound cfg lr filt newf).2) := by
  intro pre
  induction pre with
  | nil =>
    intro filt post _
    simp [filterSetPropertiesList]
  | cons g gs ih =>
    intro filt post hpre
    have hg : g.url ≠ filt.url := hpre g (by simp)
    rw [List.cons_append]
    simp only [filterSetPropertiesList]
    rw [if_neg hg, ih filt post (fun x hx => hpre x (List.mem_cons_of_mem g hx))]
    simp

/-- C3 (amended): when the property-update operation finds the filter by
its old URL and the new URL differs but collides with an existing entry,
the call returns exactly the `URLExists` status and leaves every field of
the located entry except `Name` unchanged — but, contrary to the claim,
the entry's `Name` has already been overwritten with the new name before
the collision check. -/
theorem setProperties_url_collision_sets_name_only :
    ∀ (cfg : Config) (lr : LoadRes) (newf : RegFilter)
      (pre post : List RegFilter) (filt : RegFilter) (wl : Bool),
      (if wl then cfg.whitelistFilters else cfg.filters) = pre ++ filt :: post →
      (∀ g ∈ pre, g.url ≠ filt.url) →
      newf.url ≠ filt.url →
      filterExistsNoLock cfg newf.url = true →
      filterSetProperties cfg lr filt.url newf wl =
        ((if wl then { cfg with whitelistFilters := pre ++ { filt with name := newf.name } :: post }
          else { cfg with filters := pre ++ { filt with name := newf.name } :: post }),
          statusURLExists) := by
  intro cfg lr newf pre post filt wl hseq hpre hne hex
  cases wl with
  | false =>
    have hs : cfg.filters = pre ++ filt :: post := by simpa using hseq
    simp only [filterSetProperties, Bool.false_eq_true, if_false]
    rw [hs, filterSetPropertiesList_found cfg lr newf pre filt post hpre,
      setPropsFound_urlExists cfg lr filt newf hne hex]
  | true =>
    have hs : cfg.whitelistFilters = pre ++ filt :: post := by simpa using hseq
    simp only [filterSetProperties, if_true]
    rw [hs, filterSetPropertiesList_found cfg lr newf pre filt post hpre,
      setPropsFound_urlExists cfg lr filt newf hne hex]

/-! ## Batch refresh lemmas -/

theorem isFail_iff (u : UpdRes) : isFail u = true ↔ u = UpdRes.fail := by
  cases u <;> simp [isFail]

theorem isChanged_of_fail (u : UpdRes) (h : u = UpdRes.fail) : isChanged u = false := by
  subst h; rfl

theorem length_filter_eq_length_iff {α : Type} (p : α → Bool) (l : List α) :
    ((l.filter p).length = l.length) ↔ ∀ x ∈ l, p x = true := by
  induction l with
  | nil => simp
  | cons x xs ih =>
    cases hx : p x with
    | true => simp [List.filter_cons, hx, ih]
    | false =>
      rw [List.filter_cons, if_neg (by simp [hx]), List.length_cons]
      constructor
      · intro h
        exact absurd h (by have := List.length_filter_le p xs; omega)
      · intro h
        exact absurd (h x (by simp)) (by simp [hx])

theorem refreshFiltersArray_netErr_iff (upd : RegFilter → UpdRes) (force : Bool)
    (now ivalHours : Int) (filters : List RegFilter) :
    (refreshFiltersArray upd force now ivalHours filters).2 = true ↔
      (candidatesOf force now ivalHours filters ≠ []
        ∧ ∀ c ∈ candidatesOf force now ivalHours filters, upd c = UpdRes.fail) := by
  unfold refreshFiltersArray
  by_cases hc : (candidatesOf force now ivalHours filters).isEmpty
  · rw [if_pos hc]
    have : candidatesOf force now ivalHours filters = [] := by
      simpa [List.isEmpty_iff] using hc
    simp [this]
  · rw [if_neg hc]
    by_cases hn : ((candidatesOf force now ivalHours filters).filter
        (fun c => isFail (upd c))).length = (candidatesOf force now ivalHours filters).length
    · rw [if_pos hn]
      have hne : candidatesOf force now ivalHours filters ≠ [] := by
        simpa [List.isEmpty_iff] using hc
      have hall := (length_filter_eq_length_iff _ _).mp hn
      simp only [true_iff]
      exact ⟨hne, fun c hcm => (isFail_iff (upd c)).mp (hall c hcm)⟩
    · rw [if_neg hn]
      simp only [Bool.false_eq_true, false_iff]
      rintro ⟨-, hall⟩
      exact hn ((length_filter_eq_length_iff _ _).mpr
        (fun c hcm => (isFail_iff (upd c)).mpr (hall c hcm)))

theorem count_pair_of_nodup (i : Int) (u : String) :
    ∀ l : List RegFilter,
      (l.map (fun g => (g.id, g.url))).Nodup →
      (∃ f ∈ l, f.id = i ∧ f.url = u) →
      (l.filter (fun g => decide (g.id = i ∧ g.url = u))).length = 1 := by
  intro l
  induction l with
  | nil => intro _ hex; simp at hex
  | cons g gs ih =>
    intro hnd hex
    rw [List.map_cons, List.nodup_cons] at hnd
    obtain ⟨hg, hnd2⟩ := hnd
    by_cases hm : g.id = i ∧ g.url = u
    · have hzero : gs.filter (fun x => decide (x.id = i ∧ x.url = u)) = [] := by
        rw [List.filter_eq_nil_iff]
        intro x hx h2
        rw [decide_eq_true_eq] at h2
        exact hg (by rw [hm.1, hm.2, ← h2.1, ← h2.2]; exact List.mem_map_of_mem _ hx)
      have hcond : decide (g.id = i ∧ g.url = u) = true := by simp [hm.1, hm.2]
      rw [List.filter_cons, if_pos hcond, hzero]
      rfl
    · rw [List.filter_cons, if_neg (by simpa using hm)]
      apply ih hnd2
      obtain ⟨f, hf, hfi, hfu⟩ := hex
      rcases List.mem_cons.mp hf with rfl | hf2
      · exact absurd ⟨hfi, hfu⟩ hm
      · exact ⟨f, hf2, hfi, hfu⟩

theorem matchCount_snapshot_one (filters : List RegFilter) (f : RegFilter)
    (hnd : (filters.map (fun g => (g.id, g.url))).Nodup) (hf : f ∈ filters) :
    matchCount filters (snapshotOf f) = 1 :=
  count_pair_of_nodup f.id f.url filters hnd ⟨f, hf, rfl, rfl⟩

theorem sum_if_mc_one (p : RegFilter → Bool) (mc : RegFilter → Nat) :
    ∀ cands : List RegFilter, (∀ c ∈ cands, mc c = 1) →
      (cands.map (fun c => if p c then mc c else 0)).sum = (cands.filter p).length := by
  intro cands
  induction cands with
  | nil => intro _; simp
  | cons c cs ih =>
    intro h
    rw [List.map_cons, List.sum_cons, List.filter_cons]
    cases hp : p c with
    | true =>
      simp [hp, h c (by simp), ih (fun x hx => h x (List.mem_cons_of_mem c hx))]
      omega
    | false => simp [hp, ih (fun x hx => h x (List.mem_cons_of_mem c hx))]

theorem candidates_mc_one (force : Bool) (now ivalHours : Int)
    (filters : List RegFilter)
    (hnd : (filters.map (fun g => (g.id, g.url))).Nodup) :
    ∀ c ∈ candidatesOf force now ivalHours filters, matchCount filters c = 1 := by
  intro c hcm
  obtain ⟨f, hfmem, rfl⟩ := List.mem_map.mp hcm
  exact matchCount_snapshot_one filters f hnd (List.mem_of_mem_filter hfmem)

theorem refreshFiltersArray_count (upd : RegFilter → UpdRes) (force : Bool)
    (now ivalHours : Int) (filters : List RegFilter)
    (hnd : (filters.map (fun g => (g.id, g.url))).Nodup) :
    (refreshFiltersArray upd force now ivalHours filters).1 =
      ((candidatesOf force now ivalHours filters).filter
        (fun c => isChanged (upd c))).length := by
  unfold refreshFiltersArray
  by_cases hc : (candidatesOf force now ivalHours filters).isEmpty
  · rw [if_pos hc]
    have : candidatesOf force now ivalHours filters = [] := by
      simpa [List.isEmpty_iff] using hc
    simp [this]
  · rw [if_neg hc]
    by_cases hn : ((candidatesOf force now ivalHours filters).filter
        (fun c => isFail (upd c))).length = (candidatesOf force now ivalHours filters).length
    · rw [if_pos hn]
      have hall := (length_filter_eq_length_iff _ _).mp hn
      have : (candidatesOf force now ivalHours filters).filter
          (fun c => isChanged (upd c)) = [] := by
        rw [List.filter_eq_nil_iff]
        intro c hcm
        simp [isChanged_of_fail (upd c) ((isFail_iff (upd c)).mp (hall c hcm))]
      simp [this]
    · rw [if_neg hn]
      exact sum_if_mc_one (fun c => isChanged (upd c)) (matchCount filters) _
        (candidates_mc_one force now ivalHours filters hnd)

/-- C4 (amended): with both sequences targeted, a refresh batch is surfaced
as a network-error signal if and only if each targeted sequence separately
has at least one candidate filter and every one of that sequence's
candidates failed with a fetch/validate error; in particular — contrary to
the claim — a batch whose only candidates live in one sequence and all
fail is not surfaced when the other sequence has no candidates.  The count
of truly changed filters is returned separately (for sequences whose
(ID, URL) pairs are duplicate-free). -/
theorem refresh_network_error_iff_each_sequence_fails :
    ∀ (upd : RegFilter → UpdRes) (now ivalHours : Int) (cfg : Config),
      ((refreshFiltersIfNecessary upd
            (filterRefreshBlocklists ||| filterRefreshAllowlists) now ivalHours cfg).2 = true ↔
        ((candidatesOf false now ivalHours cfg.filters ≠ []
            ∧ ∀ c ∈ candidatesOf false now ivalHours cfg.filters, upd c = UpdRes.fail)
          ∧ (candidatesOf false now ivalHours cfg.whitelistFilters ≠ []
            ∧ ∀ c ∈ candidatesOf false now ivalHours cfg.whitelistFilters,
                upd c = UpdRes.fail)))
      ∧ ((cfg.filters.map (fun g => (g.id, g.url))).Nodup →
          (cfg.whitelistFilters.map (fun g => (g.id, g.url))).Nodup →
          (refreshFiltersIfNecessary upd
              (filterRefreshBlocklists ||| filterRefreshAllowlists) now ivalHours cfg).1 =
            ((candidatesOf false now ivalHours cfg.filters).filter
                (fun c => isChanged (upd c))).length
              + ((candidatesOf false now ivalHours cfg.whitelistFilters).filter
                  (fun c => isChanged (upd c))).length) := by
  intro upd now ivalHours cfg
  have hflags : (filterRefreshBlocklists ||| filterRefreshAllowlists : Nat) = 6 := by decide
  constructor
  · rw [← refreshFiltersArray_netErr_iff upd false now ivalHours cfg.filters,
      ← refreshFiltersArray_netErr_iff upd false now ivalHours cfg.whitelistFilters]
    rw [hflags]
    simp only [refreshFiltersIfNecessary, filterRefreshForce, filterRefreshBlocklists,
      filterRefreshAllowlists]
    norm_num
    cases hb : (refreshFiltersArray upd false now ivalHours cfg.filters).2 <;>
      cases hw : (refreshFiltersArray upd false now ivalHours cfg.whitelistFilters).2 <;>
        simp [hb, hw]
  · intro hnd1 hnd2
    have h1 := refreshFiltersArray_count upd false now ivalHours cfg.filters hnd1
    have h2 := refreshFiltersArray_count upd false now ivalHours cfg.whitelistFilters hnd2
    rw [hflags]
    simp only [refreshFiltersIfNecessary, filterRefreshForce, filterRefreshBlocklists,
      filterRefreshAllowlists]
    norm_num
    cases hb : (refreshFiltersArray upd false now ivalHours cfg.filters).2 <;>
      cases hw : (refreshFiltersArray upd false now ivalHours cfg.whitelistFilters).2
    · simp [hb, hw, h1, h2]
    · simp [hb, hw, h1, h2]
    · simp [hb, hw, h1, h2]
    · -- both sequences entirely failed: the merged count is 0 and both
      -- changed-candidate lists are empty
      obtain ⟨-, hall1⟩ := (refreshFiltersArray_netErr_iff upd false now ivalHours
        cfg.filters).mp hb
      obtain ⟨-, hall2⟩ := (refreshFiltersArray_netErr_iff upd false now ivalHours
        cfg.whitelistFilters).mp hw
      have hz1 : (candidatesOf false now ivalHours cfg.filters).filter
          (fun c => isChanged (upd c)) = [] := by
        rw [List.filter_eq_nil_iff]
        intro c hcm
        simp [isChanged_of_fail (upd c) (hall1 c hcm)]
      have hz2 : (candidatesOf false now ivalHours cfg.whitelistFilters).filter
          (fun c => isChanged (upd c)) = [] := by
        rw [List.filter_eq_nil_iff]
        intro c hcm
        simp [isChanged_of_fail (upd c) (hall2 c hcm)]
      simp [hb, hw, hz1, hz2]

/-! ## Scheduler interval lemmas -/

/-- C8: the scheduler's interval starts at 5 seconds; a pass whose batch
ran and did not fail entirely sets the interval to 3600 seconds; a pass
whose batch failed entirely doubles the interval capped at 3600; three
consecutive fully-failed batches starting from the initial 5-second
interval yield the successive intervals 5, 10, 20, 40. -/
theorem scheduler_interval_policy :
    initialInterval = 5
    ∧ (∀ i, periodicStep i true false = 3600)
    ∧ (∀ i, periodicStep i true true = min (i * 2) 3600)
    ∧ periodicStep initialInterval true true = 10
    ∧ periodicStep 10 true true = 20
    ∧ periodicStep 20 true true = 40 := by
  refine ⟨rfl, fun i => rfl, fun i => ?_, rfl, rfl, rfl⟩
  simp only [periodicStep, maxInterval]
  norm_num
  split <;> omega

/-! ## Filter ID lemmas -/

theorem loadFilters_cons (next id : Int) (rest : List Int) :
    loadFilters next (id :: rest) =
      ((if id = 0 then next else id) ::
          (loadFilters (if id = 0 then next + 1 else next) rest).1,
        (loadFilters (if id = 0 then next + 1 else next) rest).2) := by
  rw [loadFilters]
  by_cases h : id = 0 <;> simp [h, assignUniqueFilterID]

theorem assignedIDs_nil (next : Int) : assignedIDs next [] = [] := rfl

theorem assignedIDs_cons (next id : Int) (rest : List Int) :
    assignedIDs next (id :: rest) =
      if id = 0 then next :: assignedIDs (next + 1) rest
      else assignedIDs next rest := by
  unfold assignedIDs
  rw [loadFilters_cons]
  by_cases h : id = 0 <;> simp [h]

theorem loadFilters_snd_ge (ids : List Int) : ∀ next, next ≤ (loadFilters next ids).2 := by
  induction ids with
  | nil => intro next; exact le_refl next
  | cons id rest ih =>
    intro next
    rw [loadFilters_cons]
    by_cases h : id = 0
    · simp only [h, if_pos rfl]
      exact le_trans (by omega) (ih (next + 1))
    · simp only [if_neg h]
      exact ih next

theorem assignedIDs_bounds (ids : List Int) :
    ∀ next x, x ∈ assignedIDs next ids →
      next ≤ x ∧ x < (loadFilters next ids).2 := by
  induction ids with
  | nil => intro next x hx; simp [assignedIDs_nil] at hx
  | cons id rest ih =>
    intro next x hx
    rw [assignedIDs_cons] at hx
    rw [loadFilters_cons]
    by_cases h : id = 0
    · rw [if_pos h] at hx
      simp only [h, if_pos rfl]
      rcases List.mem_cons.mp hx with rfl | hx2
      · exact ⟨le_refl x, lt_of_lt_of_le (by omega) (loadFilters_snd_ge rest (x + 1))⟩
      · obtain ⟨ha, hb⟩ := ih (next + 1) x hx2
        exact ⟨by omega, hb⟩
    · rw [if_neg h] at hx
      simp only [if_neg h]
      exact ih next x hx

theorem assignedIDs_nodup (ids : List Int) : ∀ next, (assignedIDs next ids).Nodup := by
  induction ids with
  | nil => intro next; simp [assignedIDs_nil]
  | cons id rest ih =>
    intro next
    rw [assignedIDs_cons]
    by_cases h : id = 0
    · rw [if_pos h]
      refine List.nodup_cons.mpr ⟨?_, ih (next + 1)⟩
      intro hmem
      have := (assignedIDs_bounds rest (next + 1) next hmem).1
      omega
    · rw [if_neg h]
      exact ih next

theorem updateUniqueFilterID_ge (ids : List Int) :
    ∀ next, next ≤ updateUniqueFilterID next ids := by
  induction ids with
  | nil => intro next; exact le_refl next
  | cons id rest ih =>
    intro next
    rw [updateUniqueFilterID]
    refine le_trans ?_ (ih _)
    by_cases h : next < id
    · rw [if_pos h]; omega
    · rw [if_neg h]

theorem updateUniqueFilterID_mem_le (ids : List Int) :
    ∀ next x, x ∈ ids → x ≤ updateUniqueFilterID next ids := by
  induction ids with
  | nil => intro next x hx; simp at hx
  | cons id rest ih =>
    intro next x hx
    rw [updateUniqueFilterID]
    rcases List.mem_cons.mp hx with rfl | hx2
    · refine le_trans ?_ (updateUniqueFilterID_ge rest _)
      by_cases h : next < x
      · rw [if_pos h]; omega
      · rw [if_neg h]; omega
    · exact ih _ x hx2

/-- C9 (amended): within one load pass, the IDs handed out to filters
loaded with ID 0 are pairwise distinct, at least the counter's starting
value (the process-start seed), and strictly below the counter's final
value; and the post-load counter adjustment leaves the counter at least
its previous value and at least every ID in the array.  (Strict
monotonicity against preexisting IDs, as claimed, does not hold: the
first assigned ID equals the seed, and a preexisting ID equal to the
counter is neither avoided nor jumped over.) -/
theorem assigned_ids_unique_and_counter_bounds :
    (∀ (next : Int) (ids : List Int),
      (assignedIDs next ids).Nodup
        ∧ ∀ x ∈ assignedIDs next ids, next ≤ x ∧ x < (loadFilters next ids).2)
    ∧ (∀ (next : Int) (ids : List Int),
        next ≤ updateUniqueFilterID next ids
          ∧ ∀ x ∈ ids, x ≤ updateUniqueFilterID next ids) := by
  exact ⟨fun next ids => ⟨assignedIDs_nodup ids next, assignedIDs_bounds ids next⟩,
    fun next ids => ⟨updateUniqueFilterID_ge ids next,
      fun x hx => updateUniqueFilterID_mem_le ids next x hx⟩⟩

/-! ## Concrete instances for witnesses and counterexamples -/

def exFlt1 : FilterB := ⟨[], 3, 7, 0⟩

def exDisk1 : Option (List Byte × Nat) := some ([97], 2)

def exHtmlBody : List Byte := [60, 72, 84, 77, 76]

def exFlt6 : FilterB := ⟨[98], 5, 0, 1⟩

def exDisk6 : Option (List Byte × Nat) := some ([97], 3)

def exFlt7 : FilterB := ⟨[65], 0, 99, 0⟩

def exBody7 : List Byte := [114, 10]

def fA : RegFilter := ⟨true, "a", "old", 3, 50, 7, 1⟩

def fB : RegFilter := ⟨true, "b", "bee", 0, 50, 0, 2⟩

def cfgEx : Config := ⟨[fA, fB], []⟩

def newfEx : RegFilter := ⟨true, "b", "new", 0, 0, 0, 0⟩

def cfgC4 : Config := ⟨[fA], []⟩

def cfgC4b : Config := ⟨[fA], [fB]⟩

def updFailEx : RegFilter → UpdRes := fun _ => UpdRes.fail

def updOkEx : RegFilter → UpdRes := fun f => if f.url == "a" then UpdRes.done true else UpdRes.done false

def exRule10 : List Byte := [32, 114, 117, 108, 101]

def exTitle10 : List Byte := [32, 32, 33, 32, 84, 105, 116, 108, 101, 58, 32, 70, 111, 111]

def exData10 : List Byte := [32, 32, 33, 32, 84, 105, 116, 108, 101, 58, 32, 70, 111, 111, 10]

/-! ## Witnesses and counterexamples -/

/-- Witness for the C1 theorem at a concrete failing fetch. -/
theorem failed_update_keeps_cached_metadata_witness :
    (Fetch.fetchErr = Fetch.fetchErr ∨
        ∃ d, Fetch.fetchErr = Fetch.body d ∧ readAccepts d = false)
    ∧ (update 50 exFlt1 exDisk1 Fetch.fetchErr).flt.lastUpdated = 50
    ∧ (update 50 exFlt1 exDisk1 Fetch.fetchErr).flt.checksum = exFlt1.checksum :=
  ⟨Or.inl rfl,
    (failed_update_keeps_cached_metadata 50 exFlt1 exDisk1 Fetch.fetchErr (Or.inl rfl)).1,
    (failed_update_keeps_cached_metadata 50 exFlt1 exDisk1 Fetch.fetchErr
      (Or.inl rfl)).2.2.2.2.1⟩

/-- Counterexample to C1 as stated: after a failed fetch for a filter
whose cached rules count is 3 and checksum is 7, the cached values stay 3
and 7 (they are not cleared to zero), and the committed file's
modification time is rewritten to now. -/
theorem failed_update_clears_metadata_counterexample :
    (update 50 exFlt1 exDisk1 Fetch.fetchErr).errored = true
    ∧ ¬((update 50 exFlt1 exDisk1 Fetch.fetchErr).flt.checksum = 0
        ∧ (update 50 exFlt1 exDisk1 Fetch.fetchErr).flt.rulesCount = 0)
    ∧ (update 50 exFlt1 exDisk1 Fetch.fetchErr).disk = some ([97], 50) := by
  decide

/-- Witness for the C2 theorem at the uppercase payload "&lt;HTML". -/
theorem read_rejects_iff_witness :
    readAccepts exHtmlBody = false
    ∧ (update 0 exFlt1 none (Fetch.body exHtmlBody)).errored = true
    ∧ (update 0 exFlt1 none (Fetch.body exHtmlBody)).renamed = false :=
  ⟨by decide,
    ((read_rejects_iff_nonprintable_or_html exHtmlBody).2 0 exFlt1 none (by decide)).1,
    ((read_rejects_iff_nonprintable_or_html exHtmlBody).2 0 exFlt1 none (by decide)).2.1⟩

/-- Counterexample to C2 as stated: byte 0xFF lies outside the claimed
allowed set `{0x20..0x7E} ∪ {\n,\r,\t}`, yet the validator accepts a
stream consisting of it. -/
theorem read_accepts_high_byte_counterexample :
    readAccepts [255] = true
    ∧ ¬((32 ≤ 255 ∧ (255 : Nat) ≤ 126) ∨ (255 : Nat) = 10 ∨ (255 : Nat) = 13
        ∨ (255 : Nat) = 9) := by
  decide

/-- Witness for the C3 theorem on a two-entry blocklist. -/
theorem setProperties_url_collision_witness :
    newfEx.url ≠ fA.url
    ∧ filterExistsNoLock cfgEx newfEx.url = true
    ∧ filterSetProperties cfgEx LoadRes.notExist fA.url newfEx false =
        ((if false then
            { cfgEx with whitelistFilters := [] ++ { fA with name := newfEx.name } :: [fB] }
          else { cfgEx with filters := [] ++ { fA with name := newfEx.name } :: [fB] }),
          statusURLExists) :=
  ⟨by decide, by decide,
    setProperties_url_collision_sets_name_only cfgEx LoadRes.notExist newfEx [] [fB] fA false
      (by decide) (by simp) (by decide) (by decide)⟩

/-- Counterexample to C3 as stated: the call returns `URLExists` but the
located entry's Name has been changed from "old" to "new". -/
theorem setProperties_modifies_name_counterexample :
    (filterSetProperties cfgEx LoadRes.notExist "a" newfEx false).2 = statusURLExists
    ∧ (filterSetProperties cfgEx LoadRes.notExist "a" newfEx false).1.filters ≠
        cfgEx.filters := by
  decide

/-- Witness for the C4 theorem: the count equation at a concrete
configuration with one blocklist and one allowlist filter. -/
theorem refresh_count_witness :
    ((cfgC4b.filters.map (fun g => (g.id, g.url))).Nodup)
    ∧ ((cfgC4b.whitelistFilters.map (fun g => (g.id, g.url))).Nodup)
    ∧ (refreshFiltersIfNecessary updOkEx
          (filterRefreshBlocklists ||| filterRefreshAllowlists) 1000000 1 cfgC4b).1 =
        ((candidatesOf false 1000000 1 cfgC4b.filters).filter
            (fun c => isChanged (updOkEx c))).length
          + ((candidatesOf false 1000000 1 cfgC4b.whitelistFilters).filter
              (fun c => isChanged (updOkEx c))).length :=
  ⟨by decide, by decide,
    (refresh_network_error_iff_each_sequence_fails updOkEx 1000000 1 cfgC4b).2
      (by decide) (by decide)⟩

/-- Counterexample to C4 as stated: a batch with exactly one candidate
(in the blocklist) in which every candidate fails is nevertheless not
surfaced as a network-error signal, because the allowlist contributed no
candidates. -/
theorem refresh_all_failed_not_signalled_counterexample :
    (candidatesOf false 1000000 1 cfgC4.filters).length = 1
    ∧ (∀ c ∈ candidatesOf false 1000000 1 cfgC4.filters, updFailEx c = UpdRes.fail)
    ∧ cfgC4.whitelistFilters = []
    ∧ (refreshFiltersIfNecessary updFailEx
        (filterRefreshBlocklists ||| filterRefreshAllowlists) 1000000 1 cfgC4).2 = false := by
  decide

/-- Witness for the C6 theorem at a byte-identical (empty) remote body. -/
theorem unchanged_content_witness :
    readAccepts [] = true
    ∧ (parseFilterContents []).checksum = exFlt6.checksum
    ∧ (update 9 exFlt6 exDisk6 (Fetch.body [])).renamed = false
    ∧ (update 9 exFlt6 exDisk6 (Fetch.body [])).disk = some ([97], 9) := by
  refine ⟨by decide, by decide, ?_, ?_⟩
  · exact (unchanged_content_skips_commit 9 exFlt6 exDisk6 [] (by decide) (by decide)).1
  · rw [(unchanged_content_skips_commit 9 exFlt6 exDisk6 [] (by decide)
      (by decide)).2.2.2.2.2.2.2.2]
    rfl

/-- Witness for the C7 theorem: a filter with a user-set Name keeps it
through a commit. -/
theorem title_commit_witness :
    readAccepts exBody7 = true
    ∧ (parseFilterContents exBody7).checksum ≠ exFlt7.checksum
    ∧ (update 4 exFlt7 none (Fetch.body exBody7)).flt.name =
        (if exFlt7.name.isEmpty then (parseFilterContents exBody7).name else exFlt7.name) :=
  ⟨by decide, by decide,
    title_first_match_and_commit_only_if_empty.2 4 exFlt7 none exBody7
      (by decide) (by decide)⟩

/-- Witness for the C9 theorem at seed 100 and ID list `[0, 7, 0]`. -/
theorem assigned_ids_witness :
    (101 : Int) ∈ assignedIDs 100 [0, 7, 0]
    ∧ (100 : Int) ≤ 101 ∧ (101 : Int) < (loadFilters 100 [0, 7, 0]).2
    ∧ (7 : Int) ∈ ([0, 7, 0] : List Int)
    ∧ (7 : Int) ≤ updateUniqueFilterID 100 [0, 7, 0] := by
  refine ⟨by decide, ?_, ?_, by decide, ?_⟩
  · exact ((assigned_ids_unique_and_counter_bounds.1 100 [0, 7, 0]).2 101 (by decide)).1
  · exact ((assigned_ids_unique_and_counter_bounds.1 100 [0, 7, 0]).2 101 (by decide)).2
  · exact (assigned_ids_unique_and_counter_bounds.2 100 [0, 7, 0]).2 7 (by decide)

/-- Counterexample to C9 as stated: with the counter seeded at 100 and a
preexisting filter whose ID is 100, the filter loaded with ID 0 receives
ID 100 — equal to the seed and colliding with the previously observed
ID. -/
theorem load_ids_collide_counterexample :
    (loadFilters 100 [100, 0]).1 = [100, 100]
    ∧ ¬ (loadFilters 100 [100, 0]).1.Nodup := by
  decide

/-- Witness for the C10 theorem: an indented rule line counts as a rule,
and an indented title line sets the declared name. -/
theorem parse_classify_witness :
    trimSpace exRule10 ≠ []
    ∧ (trimSpace exRule10).headD 0 ≠ 33
    ∧ (trimSpace exRule10).headD 0 ≠ 35
    ∧ (processLine initParseState exRule10).rulesCount = initParseState.rulesCount + 1
    ∧ matchTitle (trimSpace exTitle10) = some [70, 111, 111]
    ∧ (processLine initParseState exTitle10).name = [70, 111, 111] := by
  refine ⟨by decide, by decide, by decide, ?_, by decide, ?_⟩
  · exact parse_classifies_trimmed_lines.2.2.2.1 initParseState exRule10
      (by decide) (by decide) (by decide)
  · exact parse_classifies_trimmed_lines.2.2.2.2 initParseState exTitle10 [70, 111, 111]
      rfl (by decide)

/-- Counterexample to C10 as stated: the line "  ! Title: Foo" is
indented, yet parsing the document consisting of it sets the declared
name to "Foo", because the title pattern is applied to the trimmed
line. -/
theorem indented_title_matches_counterexample :
    exData10.take 2 = [32, 32]
    ∧ (parseFilterContents exData10).name = [70, 111, 111] := by
  decide

end AdGuard
